import Mathlib

/-!
Verification of the cronlet repository's schedule compiler, execution engine
and scheduler against its natural-language specification.

The TypeScript sources are shallowly embedded as executable Lean definitions:
pure functions become Lean functions, thrown errors become `Except.error`,
and the engine's stateful retry loop becomes a recursive function over an
explicit handler-outcome oracle.  Source locations are given for each
definition.
-/

namespace Cronlet

/-! ## Schedule compiler data model (src/packages/cronlet/src/schedule/types.ts) -/

/-- `ScheduleType` (types.ts:38): one of interval, daily, weekly, monthly, cron. -/
inductive ScheduleType
  | interval
  | daily
  | weekly
  | monthly
  | cron
deriving DecidableEq, Repr

/-- The `originalParams` bag (types.ts:53, a `Record<string, unknown>`), modelled
as a tagged union of the concrete shapes each builder stores. -/
inductive OriginalParams
  | intervalParams (interval : String)
  | dailyParams (times : List String)
  | weeklyParams (days : List String) (time : String)
  | cronParams (expression : String)
deriving DecidableEq, Repr

/-- `ScheduleBuilder` (types.ts:59-75).  The builder carries the same data as
`ScheduleDescriptor`; its `withTimezone` method is modelled as the function
`ScheduleBuilder.withTimezone` below. -/
structure ScheduleBuilder where
  type : ScheduleType
  cron : String
  timezone : Option String
  humanReadable : String
  originalParams : OriginalParams
deriving DecidableEq, Repr

/-- `withTimezone` (types.ts:89-94): `createScheduleBuilder({...descriptor, timezone: tz})`
rebuilds a fresh builder from the captured descriptor with only `timezone` replaced. -/
def ScheduleBuilder.withTimezone (b : ScheduleBuilder) (tz : String) : ScheduleBuilder :=
  { b with timezone := some tz }

/-! ## Interval schedules (src/packages/cronlet/src/schedule/every.ts) -/

/-- `IntervalUnit` (types.ts:9). -/
inductive IntervalUnit
  | s
  | m
  | h
  | d
  | w
deriving DecidableEq, Repr

/-- The `d` case of `intervalToCron` (every.ts:54-59). -/
def cronForDay (value : Nat) : String :=
  if value = 1 then "0 0 * * *" else "0 0 */" ++ toString value ++ " * *"

/-- The `h` case of `intervalToCron` (every.ts:47-52); `Math.ceil(value/24)`
is `(value + 23) / 24` on naturals. -/
def cronForHour (value : Nat) : String :=
  if value < 24 then "0 */" ++ toString value ++ " * * *"
  else cronForDay ((value + 23) / 24)

/-- The `m` case of `intervalToCron` (every.ts:40-45). -/
def cronForMinute (value : Nat) : String :=
  if value < 60 then "*/" ++ toString value ++ " * * * *"
  else cronForHour ((value + 59) / 60)

/-- The `s` case of `intervalToCron` (every.ts:31-38). -/
def cronForSecond (value : Nat) : String :=
  if value < 60 then "*/" ++ toString value ++ " * * * * *"
  else cronForMinute ((value + 59) / 60)

/-- `intervalToCron` (every.ts:29-71).  The mutual recursion of the source
(`s` defers to `m`, `m` to `h`, `h` to `d`, `w` to `d`) is laid out as the
chain of definitions above. -/
def intervalToCron (value : Nat) : IntervalUnit → String
  | .s => cronForSecond value
  | .m => cronForMinute value
  | .h => cronForHour value
  | .d => cronForDay value
  | .w => if value = 1 then "0 0 * * 0" else cronForDay (value * 7)

/-- Singular unit names (every.ts:77-83). -/
def unitSingular : IntervalUnit → String
  | .s => "second"
  | .m => "minute"
  | .h => "hour"
  | .d => "day"
  | .w => "week"

/-- Plural unit names (every.ts:77-83). -/
def unitPlural : IntervalUnit → String
  | .s => "seconds"
  | .m => "minutes"
  | .h => "hours"
  | .d => "days"
  | .w => "weeks"

/-- `intervalToHumanReadable` (every.ts:76-89). -/
def intervalToHumanReadable (value : Nat) (unit : IntervalUnit) : String :=
  "every " ++ toString value ++ " " ++
    (if value = 1 then unitSingular unit else unitPlural unit)

/-- The base-10 value of an all-digit character group, as JS `parseInt`
computes it. -/
def digitsVal (cs : List Char) : Nat :=
  cs.foldl (fun n c => n * 10 + (c.toNat - 48)) 0

/-- `parseInt` applied to a regex `\d+` group: defined exactly when the
characters are a nonempty digit run. -/
def parseDigits (cs : List Char) : Option Nat :=
  if cs.isEmpty then none
  else if cs.all Char.isDigit then some (digitsVal cs) else none

/-- Split a character list at every separator matching `p`, keeping empty
pieces — the semantics of splitting on a single-character regex class. -/
def splitOnPred (p : Char → Bool) : List Char → List (List Char)
  | [] => [[]]
  | c :: cs =>
    if p c then [] :: splitOnPred p cs
    else
      match splitOnPred p cs with
      | [] => [[c]]
      | r :: rs => (c :: r) :: rs

/-- The unit letter of the regex `^(\d+)([smhdw])$` (every.ts:8). -/
def charToUnit (c : Char) : Option IntervalUnit :=
  if c = 's' then some .s
  else if c = 'm' then some .m
  else if c = 'h' then some .h
  else if c = 'd' then some .d
  else if c = 'w' then some .w
  else none

/-- `parseInterval` (every.ts:7-23): match `^(\d+)([smhdw])$`, parse the value,
reject a non-positive value.  `String.toNat?` accepts exactly the nonempty
all-digit strings, which is the `\d+` group. -/
def parseInterval (interval : String) : Except String (Nat × IntervalUnit) :=
  let digits := interval.dropRight 1
  let unitPart := interval.takeRight 1
  match unitPart.data with
  | [c] =>
    match charToUnit c, parseDigits digits.data with
    | some unit, some value =>
      if value = 0 then
        .error ("Interval value must be positive, got: " ++ toString value)
      else
        .ok (value, unit)
    | _, _ =>
      .error ("Invalid interval format: \"" ++ interval ++
        "\". Expected format: number + unit (s/m/h/d/w). Examples: \"15m\", \"2h\", \"1d\"")
  | _ =>
    .error ("Invalid interval format: \"" ++ interval ++
      "\". Expected format: number + unit (s/m/h/d/w). Examples: \"15m\", \"2h\", \"1d\"")

/-- `every` (every.ts:105-114). -/
def every (interval : String) : Except String ScheduleBuilder :=
  match parseInterval interval with
  | .error e => .error e
  | .ok (value, unit) =>
    .ok { type := ScheduleType.interval
          cron := intervalToCron value unit
          timezone := none
          humanReadable := intervalToHumanReadable value unit
          originalParams := OriginalParams.intervalParams interval }

/-! ## Time parsing and formatting (src/packages/cronlet/src/schedule/utils.ts) -/

/-- The regex-match stage of `parseTime` (utils.ts:7-13): `^(\d{1,2}):(\d{2})$`
followed by `parseInt` of the two groups. -/
def matchTime (time : String) : Option (Nat × Nat) :=
  match (splitOnPred (fun c => c = ':') time.data).map String.mk with
  | [hs, ms] =>
    if (hs.length = 1 || hs.length = 2) && hs.data.all Char.isDigit
        && ms.length = 2 && ms.data.all Char.isDigit then
      match parseDigits hs.data, parseDigits ms.data with
      | some h, some m => some (h, m)
      | _, _ => none
    else none
  | _ => none

/-- `parseTime` (utils.ts:6-20): regex match then the bounds check
`hour < 0 || hour > 23 || minute < 0 || minute > 59` (the negative cases are
vacuous on naturals). -/
def parseTime (time : String) : Option (Nat × Nat) :=
  match matchTime time with
  | none => none
  | some (h, m) => if h ≤ 23 && m ≤ 59 then some (h, m) else none

/-- `minute.toString().padStart(2, "0")` (utils.ts:28) for naturals. -/
def padStart2 (n : Nat) : String :=
  if n < 10 then "0" ++ toString n else toString n

/-- `formatTime12Hour` (utils.ts:25-30). -/
def formatTime12Hour (hour minute : Nat) : String :=
  let period := if hour ≥ 12 then "PM" else "AM"
  let hour12 := if hour = 0 then 12 else if hour > 12 then hour - 12 else hour
  toString hour12 ++ ":" ++ padStart2 minute ++ " " ++ period

/-- `dayOfWeekToCron` (utils.ts:35-43); `none` models an `undefined` lookup for
a token outside the record. -/
def dayOfWeekToCron (d : String) : Option Nat :=
  if d = "sun" then some 0
  else if d = "mon" then some 1
  else if d = "tue" then some 2
  else if d = "wed" then some 3
  else if d = "thu" then some 4
  else if d = "fri" then some 5
  else if d = "sat" then some 6
  else none

/-- `dayOfWeekToName` (utils.ts:48-56). -/
def dayOfWeekToName (d : String) : Option String :=
  if d = "sun" then some "Sunday"
  else if d = "mon" then some "Monday"
  else if d = "tue" then some "Tuesday"
  else if d = "wed" then some "Wednesday"
  else if d = "thu" then some "Thursday"
  else if d = "fri" then some "Friday"
  else if d = "sat" then some "Saturday"
  else none

/-! ## Shared list helpers for the builders -/

/-- `[...new Set(l)]` for a JS array of numbers: keep the first occurrence of
each element in insertion order. -/
def jsSetDedup (l : List Nat) : List Nat :=
  l.foldl (fun acc x => if x ∈ acc then acc else acc ++ [x]) []

/-- `.sort((a, b) => a - b)` on a JS number array: the ascending sort; any
sort of naturals produces this unique list, here Mathlib's insertion sort. -/
def sortAsc (l : List Nat) : List Nat :=
  List.insertionSort (fun a b => a ≤ b) l

/-- `.join(",")` on a JS number array. -/
def joinComma (l : List Nat) : String :=
  String.intercalate "," (l.map toString)

/-! ## Daily schedules (src/unnamed/part_016, `daily`) -/

/-- The `times.map(parseTime-or-throw)` stage of `daily` (part_016:24-32):
returns the parsed list, or the first offending literal. -/
def parseTimesList : List String → Except String (List (Nat × Nat))
  | [] => .ok []
  | t :: ts =>
    match parseTime t with
    | none => .error t
    | some p =>
      match parseTimesList ts with
      | .error e => .error e
      | .ok ps => .ok (p :: ps)

/-- The grouped error message of `daily` (part_016:27-29). -/
def invalidTimeMessage (t : String) : String :=
  "Invalid time format: \"" ++ t ++ "\". Expected 24-hour format like \"09:00\" or \"17:30\""

/-- The human-readable text of `daily` (part_016:60-69); the 3-or-more case
mirrors `timeStrings.pop()` followed by a `", "` join. -/
def dailyHuman (timeStrings : List String) : String :=
  match timeStrings with
  | [t] => "daily at " ++ t
  | [t1, t2] => "daily at " ++ t1 ++ " and " ++ t2
  | ts =>
    "daily at " ++ String.intercalate ", " ts.dropLast ++ ", and " ++
      (ts.getLastD "")

/-- `daily` (part_016:18-77). -/
def daily (times : List String) : Except String ScheduleBuilder :=
  if times.length = 0 then
    .error "daily() requires at least one time argument"
  else
    match parseTimesList times with
    | .error t => .error (invalidTimeMessage t)
    | .ok parsedTimes =>
      let hours := sortAsc (jsSetDedup (parsedTimes.map (fun t => t.1)))
      let minutes := sortAsc (jsSetDedup (parsedTimes.map (fun t => t.2)))
      let cronE : Except String String :=
        match parsedTimes with
        | [p] => .ok (toString p.2 ++ " " ++ toString p.1 ++ " * * *")
        | _ =>
          if minutes.length = 1 then
            .ok (toString (minutes.getD 0 0) ++ " " ++ joinComma hours ++ " * * *")
          else if hours.length = 1 then
            .ok (joinComma minutes ++ " " ++ toString (hours.getD 0 0) ++ " * * *")
          else
            .error ("daily() with multiple times requires either the same hour or same minute. " ++
              "Got times with different hours and minutes: " ++
              String.intercalate ", " times ++ ". Create separate schedules instead.")
      match cronE with
      | .error e => .error e
      | .ok cron =>
        .ok { type := ScheduleType.daily
              cron := cron
              timezone := none
              humanReadable := dailyHuman (parsedTimes.map (fun t => formatTime12Hour t.1 t.2))
              originalParams := OriginalParams.dailyParams times }

/-! ## Weekly schedules (src/packages/cronlet/src/schedule/weekly.ts) -/

/-- The human-readable day list of `weekly` (weekly.ts:60-68), over the
day names in their original input order. -/
def weeklyHuman (dayNames : List String) (timeStr : String) : String :=
  match dayNames with
  | [d] => "every " ++ d ++ " at " ++ timeStr
  | [d1, d2] => "every " ++ d1 ++ " and " ++ d2 ++ " at " ++ timeStr
  | ds =>
    "every " ++ String.intercalate ", " ds.dropLast ++ ", and " ++
      (ds.getLastD "") ++ " at " ++ timeStr

/-- `weekly` (weekly.ts:19-76).  Validation order follows the source:
empty-array check, day-token check, then time parse.  The cron day-of-week
list is the ascending sort of the mapped tokens with no deduplication. -/
def weekly (days : List String) (time : String) : Except String ScheduleBuilder :=
  if days.length = 0 then
    .error "weekly() requires at least one day"
  else
    match days.find? (fun d => (dayOfWeekToCron d).isNone) with
    | some d =>
      .error ("Invalid day of week: \"" ++ d ++
        "\". Expected one of: mon, tue, wed, thu, fri, sat, sun")
    | none =>
      match parseTime time with
      | none => .error (invalidTimeMessage time)
      | some (hour, minute) =>
        let cronDays := sortAsc (days.filterMap dayOfWeekToCron)
        let cron := toString minute ++ " " ++ toString hour ++ " * * " ++ joinComma cronDays
        let timeStr := formatTime12Hour hour minute
        .ok { type := ScheduleType.weekly
              cron := cron
              timezone := none
              humanReadable := weeklyHuman (days.filterMap dayOfWeekToName) timeStr
              originalParams := OriginalParams.weeklyParams days time }

/-! ## Raw cron expressions (src/unnamed/part_016, `validateCronExpression`, `cron`) -/

/-- Drop a matching suffix: `List.dropWhile` conjugated by `reverse`. -/
def dropEnd (p : Char → Bool) (l : List Char) : List Char :=
  ((l.reverse.dropWhile p).reverse)

/-- JS `String.prototype.trim()`: remove leading and trailing whitespace. -/
def jsTrim (s : String) : String :=
  String.mk (dropEnd Char.isWhitespace (s.data.dropWhile Char.isWhitespace))

/-- JS `s.split(/\s+/)` as applied in `validateCronExpression` (part_016:85),
where `s` is already trimmed: the empty string yields `[""]`, and any other
trimmed string yields its whitespace-separated tokens. -/
def splitWsJs (s : String) : List String :=
  if s = "" then [""]
  else ((splitOnPred Char.isWhitespace s.data).map String.mk).filter (fun t => t ≠ "")

/-- The field character class `/^[\d*,/\-LW#]+$/` (part_016:93). -/
def isCronFieldChar (c : Char) : Bool :=
  c.isDigit || c = '*' || c = ',' || c = '/' || c = '-' || c = 'L' || c = 'W' || c = '#'

/-- `validateCronExpression` (part_016:83-95). -/
def validateCronExpression (expression : String) : Bool :=
  let parts := splitWsJs (jsTrim expression)
  (parts.length = 5 || parts.length = 6) &&
    parts.all (fun p => p ≠ "" && p.data.all isCronFieldChar)

/-- `s.startsWith("*/")` on the field strings of a cron expression. -/
def startsWithStarSlash (s : String) : Bool :=
  match s.data with
  | '*' :: '/' :: _ => true
  | _ => false

/-- JS `parseInt(s, 10)` restricted to the leading-digits case: `none` models
`NaN` (no leading digit), otherwise the value of the maximal digit run. -/
def parseIntLeading (s : String) : Option Nat :=
  let ds := s.data.takeWhile Char.isDigit
  if ds.isEmpty then none else some (digitsVal ds)

/-- The daily-at rendering branch of `cronToHumanReadable` (part_016:131-137);
an unparseable group renders as JS `NaN` does. -/
def cronDailyRender (minutePart hourPart : String) : String :=
  match parseIntLeading hourPart, parseIntLeading minutePart with
  | some h, some m =>
    let period := if h ≥ 12 then "PM" else "AM"
    let h12 := if h = 0 then 12 else if h > 12 then h - 12 else h
    "daily at " ++ toString h12 ++ ":" ++ padStart2 m ++ " " ++ period
  | some h, none =>
    let period := if h ≥ 12 then "PM" else "AM"
    let h12 := if h = 0 then 12 else if h > 12 then h - 12 else h
    "daily at " ++ toString h12 ++ ":NaN " ++ period
  | none, some m => "daily at NaN:" ++ padStart2 m ++ " AM"
  | none, none => "daily at NaN:NaN AM"

/-- `cronToHumanReadable` (part_016:101-142). -/
def cronToHumanReadable (expression : String) : String :=
  let parts := splitWsJs (jsTrim expression)
  match parts with
  | [minute, hour, dayOfMonth, month, dayOfWeek] =>
    if minute = "*" && hour = "*" && dayOfMonth = "*" && month = "*" && dayOfWeek = "*" then
      "every minute"
    else if startsWithStarSlash minute && hour = "*" && dayOfMonth = "*" && month = "*"
        && dayOfWeek = "*" then
      "every " ++ minute.drop 2 ++ " minutes"
    else if minute = "0" && hour = "*" && dayOfMonth = "*" && month = "*" && dayOfWeek = "*" then
      "every hour"
    else if minute = "0" && startsWithStarSlash hour && dayOfMonth = "*" && month = "*"
        && dayOfWeek = "*" then
      "every " ++ hour.drop 2 ++ " hours"
    else if dayOfMonth = "*" && month = "*" && dayOfWeek = "*" && minute ≠ ""
        && hour ≠ "" && !(minute.data.contains '*') && !(hour.data.contains '*') then
      cronDailyRender minute hour
    else
      "cron: " ++ expression
  | _ => "cron: " ++ expression

/-- `cron` (part_016:157-172).  The accepted expression is stored after
`trim()` only; internal whitespace is not compressed. -/
def cron (expression : String) : Except String ScheduleBuilder :=
  let trimmed := jsTrim expression
  if !(validateCronExpression trimmed) then
    .error ("Invalid cron expression: \"" ++ expression ++
      "\". Expected 5 or 6 space-separated fields.")
  else
    .ok { type := ScheduleType.cron
          cron := trimmed
          timezone := none
          humanReadable := cronToHumanReadable trimmed
          originalParams := OriginalParams.cronParams trimmed }

/-! ## Execution engine (src/unnamed/part_014, `ExecutionEngine`)

Wall-clock data (`Date` timestamps, `duration`, the retry sleeps) is outside
the embedding; everything ordering- and value-relevant is kept.  A handler is
embedded as an oracle `outcome : Nat → AttemptOutcome` giving, per 1-based
attempt number, the settled result of `executeAttempt` (part_014:63-97): the
race of `handler(ctx)` against the timeout promise defined in
`createTimeoutPromise` (part_015:35-51) either resolves, or rejects with an
error that `isTimeoutError` classifies. -/

/-- `BackoffStrategy` (job/types.ts:31). -/
inductive BackoffStrategy
  | linear
  | exponential
deriving DecidableEq, Repr

/-- `RetryConfig` (job/types.ts:36-43): `attempts` is required, the rest
optional. -/
structure RetryConfig where
  attempts : Nat
  backoff : Option BackoffStrategy
  initialDelay : Option String
deriving DecidableEq, Repr

/-- The engine-relevant fields of `JobConfig` (job/types.ts:48-59). -/
structure JobConfig where
  retry : Option RetryConfig
  timeout : Option String
deriving DecidableEq, Repr

/-- Result of one settled attempt: the race in `executeAttempt` either
resolves, or rejects with an error whose `isTimeoutError` classification and
message are recorded (part_014:168-175). -/
inductive AttemptOutcome
  | success
  | failure (isTimeout : Bool) (message : String)
deriving DecidableEq, Repr

/-- `ExecutionEventType` (engine/types.ts:41-46). -/
inductive EventType
  | start
  | success
  | failure
  | timeout
  | retry
deriving DecidableEq, Repr

/-- The per-run-invariant fields of `ExecutionEvent` (engine/types.ts:51-59);
`jobId`, `runId` and `timestamp` are constant or wall-clock per run and
omitted. -/
structure Event where
  type : EventType
  attempt : Nat
  error : Option String
deriving DecidableEq, Repr

/-- `ExecutionStatus` (engine/types.ts:4). -/
inductive MStatus
  | success
  | failure
  | timeout
  | retrying
deriving DecidableEq, Repr

/-- What a call to `ExecutionEngine.run` produces: the emitted event stream,
the `ExecutionResult` fields `status`/`attempt`/`error`, whether the
post-loop fallback result (part_014:242-255) was used, and the final state of
`abortController.signal.aborted` for the controller created at part_014:111. -/
structure RunOutcome where
  events : List Event
  status : MStatus
  attempt : Nat
  error : Option String
  viaFallback : Bool
  signalAborted : Bool
deriving DecidableEq, Repr

/-- JS `n || d` on numbers for the `config.attempts || DEFAULT.attempts`
read in `shouldRetry` (part_015:122): `0` is falsy. -/
def jsOrDefault (n d : Nat) : Nat :=
  if n = 0 then d else n

/-- `shouldRetry` (part_015:121-124). -/
def shouldRetry (attempt : Nat) (config : RetryConfig) : Bool :=
  attempt < jsOrDefault config.attempts 1

/-- `maxAttempts = job.config.retry?.attempts ?? 1` (part_014:122). -/
def maxAttemptsOf (retry : Option RetryConfig) : Nat :=
  match retry with
  | some r => r.attempts
  | none => 1

/-- One iteration of the `while` body of `run` (part_014:125-239): on a
resolved attempt build the success result and emit `job:success`; on a
rejected attempt either emit `job:retry` and continue with the next attempt
(`next msg` is the rest of the loop, with `lastError = err`), or build and
emit the terminal failure/timeout result. -/
def runLoopStep (attemptOutcome : AttemptOutcome) (retry : Option RetryConfig)
    (attempt : Nat) (aborted : Bool) (next : String → RunOutcome) : RunOutcome :=
  match attemptOutcome with
  | AttemptOutcome.success =>
    { events := [{ type := EventType.success, attempt := attempt, error := none }]
      status := MStatus.success
      attempt := attempt
      error := none
      viaFallback := false
      signalAborted := aborted }
  | AttemptOutcome.failure isTimeout msg =>
    if (match retry with | some r => shouldRetry attempt r | none => false) then
      let rest := next msg
      { rest with
          events := { type := EventType.retry, attempt := attempt, error := some msg }
            :: rest.events }
    else
      { events := [{ type := if isTimeout then EventType.timeout else EventType.failure,
                     attempt := attempt, error := some msg }]
        status := if isTimeout then MStatus.timeout else MStatus.failure
        attempt := attempt
        error := some msg
        viaFallback := false
        signalAborted := aborted }

/-- The `while (attempt <= maxAttempts)` loop of `run` (part_014:124-240),
with the post-loop fallback (part_014:242-255) as the guard-failure branch.
`aborted` is the abort-controller state threaded through `executeAttempt`
and both callback contexts; no source path ever calls
`abortController.abort()`, so every branch returns it unchanged. -/
def runLoop (retry : Option RetryConfig) (outcome : Nat → AttemptOutcome)
    (maxAttempts attempt : Nat) (lastError : Option String) (aborted : Bool) : RunOutcome :=
  if _h : attempt ≤ maxAttempts then
    runLoopStep (outcome attempt) retry attempt aborted
      (fun msg => runLoop retry outcome maxAttempts (attempt + 1) (some msg) aborted)
  else
    { events := []
      status := MStatus.failure
      attempt := attempt
      error := some (lastError.getD "Unknown error")
      viaFallback := true
      signalAborted := aborted }
termination_by maxAttempts + 1 - attempt
decreasing_by simp_wf; omega

/-- `ExecutionEngine.run` (part_014:105-256): emit `job:start` with
`attempt = 1`, then enter the attempt loop with a fresh (un-aborted)
controller. -/
def engineRun (config : JobConfig) (outcome : Nat → AttemptOutcome) : RunOutcome :=
  let lr := runLoop config.retry outcome (maxAttemptsOf config.retry) 1 none false
  { lr with events := { type := EventType.start, attempt := 1, error := none } :: lr.events }

/-- The precondition of the spec's run-shape claims: `retry.attempts`, when
present, is at least 1. -/
def retryAttemptsValid (config : JobConfig) : Prop :=
  match config.retry with
  | some r => 1 ≤ r.attempts
  | none => True

/-! ## Event listeners (src/unnamed/part_014, `on` / `emit`)

A listener is embedded by its observable behaviour when invoked: it either
returns or throws. -/

/-- A subscribed listener; `throws = true` models a listener whose body
throws when called. -/
structure MListener where
  throws : Bool
deriving DecidableEq, Repr

/-- `listeners.forEach((listener) => listener(event))` (part_014:55,57):
invoke in registration order; a throw terminates the iteration and
propagates.  Returns the 0-based indices invoked (offset by `idx`) and the
index of the throwing listener, if any. -/
def forEachInvoke : List MListener → Nat → List Nat × Option Nat
  | [], _ => ([], none)
  | l :: ls, idx =>
    if l.throws then ([idx], some idx)
    else
      let rest := forEachInvoke ls (idx + 1)
      (idx :: rest.1, rest.2)

/-- `ExecutionEngine.emit` (part_014:53-58): specific-type listeners first,
then wildcard listeners; there is no exception handling, so a throw in the
first group prevents the second group from running.  Returns the invoked
indices of each group and the index of the first throwing listener. -/
def emitModel (specific wildcard : List MListener) : List Nat × List Nat × Option Nat :=
  let s := forEachInvoke specific 0
  match s.2 with
  | some i => (s.1, [], some i)
  | none =>
    let w := forEachInvoke wildcard 0
    (s.1, w.1, w.2)

/-- `ExecutionEngine.run` as observed through a bus whose only subscriptions
are on `"job:start"`: the `job:start` emission (part_014:114-120) happens
outside the `try` of the attempt loop, so a listener exception there
propagates out of `run` (the promise rejects, `Except.error` with the
throwing listener's index); otherwise `run` proceeds normally. -/
def engineRunWithStartListeners (startListeners : List MListener) (config : JobConfig)
    (outcome : Nat → AttemptOutcome) : Except Nat RunOutcome :=
  match (forEachInvoke startListeners 0).2 with
  | some i => Except.error i
  | none => Except.ok (engineRun config outcome)

/-! ## Scheduler and worker `executeJob`
(src/packages/cronlet-cli/src/scheduler/index.ts:190-219 and
src/packages/cronlet/src/worker/worker.ts:143-166) -/

/-- The `ExecutionResult` fields relevant to `executeJob`. -/
structure MExecutionResult where
  jobId : String
  runId : String
  status : MStatus
  attempt : Nat
  error : Option String
deriving DecidableEq, Repr

/-- What one `executeJob` call does: the returned result, whether
`engine.run` was entered, the in-flight keys while the run was pending, and
the in-flight keys after it settled. -/
structure ExecTrace where
  result : MExecutionResult
  engineCalled : Bool
  inFlightDuring : List String
  inFlightAfter : List String
deriving DecidableEq, Repr

/-- `CronScheduler.executeJob` (scheduler/index.ts:190-219).  `nowMs` stands
for `Date.now()`, `genRunId` for the locally generated
`run_<ms>_<random>` key, and `engineResult` for what `engine.run(job)`
settles to.  The in-flight map is modelled by its key list;
`Map.delete(runId)` is the filter on the settled key. -/
def schedulerExecuteJob (shuttingDown : Bool) (nowMs : Nat) (genRunId : String)
    (engineResult : MExecutionResult) (inFlight : List String) (jobId : String) : ExecTrace :=
  if shuttingDown then
    { result := { jobId := jobId
                  runId := "skipped_" ++ toString nowMs
                  status := MStatus.failure
                  attempt := 0
                  error := some "Scheduler is shutting down" }
      engineCalled := false
      inFlightDuring := inFlight
      inFlightAfter := inFlight }
  else
    { result := engineResult
      engineCalled := true
      inFlightDuring := inFlight ++ [genRunId]
      inFlightAfter := (inFlight ++ [genRunId]).filter (fun k => k ≠ genRunId) }

/-- `CronletWorker.executeJob` (worker/worker.ts:143-166): same shape, but the
synthetic error message is "Worker is shutting down" and the in-flight key is
`` `${job.id}_${Date.now()}` `` rather than a run id. -/
def workerExecuteJob (shuttingDown : Bool) (nowMs : Nat)
    (engineResult : MExecutionResult) (inFlight : List String) (jobId : String) : ExecTrace :=
  if shuttingDown then
    { result := { jobId := jobId
                  runId := "skipped_" ++ toString nowMs
                  status := MStatus.failure
                  attempt := 0
                  error := some "Worker is shutting down" }
      engineCalled := false
      inFlightDuring := inFlight
      inFlightAfter := inFlight }
  else
    { result := engineResult
      engineCalled := true
      inFlightDuring := inFlight ++ [jobId ++ "_" ++ toString nowMs]
      inFlightAfter := (inFlight ++ [jobId ++ "_" ++ toString nowMs]).filter
        (fun k => k ≠ jobId ++ "_" ++ toString nowMs) }

/-! ## Shared lemmas about the engine loop -/

/-- `n || d` on numbers keeps a positive `n`. -/
theorem jsOrDefault_of_pos (n d : Nat) (h : 1 ≤ n) : jsOrDefault n d = n := by
  unfold jsOrDefault
  rw [if_neg (by omega)]

/-- For a valid retry config, `shouldRetry` is exactly `attempt < attempts`. -/
theorem shouldRetry_eq_decide (a : Nat) (r : RetryConfig) (h : 1 ≤ r.attempts) :
    shouldRetry a r = decide (a < r.attempts) := by
  unfold shouldRetry
  rw [jsOrDefault_of_pos _ _ h]

/-- Shape of the attempt loop's event stream, by downward induction on the
remaining attempt budget: starting at attempt `a ≤ maxAttempts`, the loop
emits retry events for the consecutive failed attempts `a, a+1, …` followed by
exactly one terminal event, and never exits through the post-loop fallback. -/
theorem runLoop_shape (retry : Option RetryConfig) (outcome : Nat → AttemptOutcome)
    (hr : ∀ r, retry = some r → 1 ≤ r.attempts) :
    ∀ k a lastE ab, maxAttemptsOf retry - a = k → a ≤ maxAttemptsOf retry →
    ∃ n t,
      (t = EventType.success ∨ t = EventType.failure ∨ t = EventType.timeout) ∧
      (runLoop retry outcome (maxAttemptsOf retry) a lastE ab).events.map
          (fun e => (e.type, e.attempt))
        = (List.range n).map (fun i => (EventType.retry, a + i)) ++ [(t, a + n)] ∧
      (∀ i, i < n → outcome (a + i) ≠ AttemptOutcome.success) ∧
      (runLoop retry outcome (maxAttemptsOf retry) a lastE ab).viaFallback = false := by
  intro k
  induction k with
  | zero =>
    intro a lastE ab hk ha
    rw [runLoop.eq_def, dif_pos ha]
    cases ho : outcome a with
    | success =>
      refine ⟨0, EventType.success, Or.inl rfl, by simp [runLoopStep], by omega, rfl⟩
    | failure isT msg =>
      cases retry with
      | none =>
        refine ⟨0, if isT then EventType.timeout else EventType.failure, ?_, ?_, by omega, ?_⟩
        · cases isT <;> simp
        · simp [runLoopStep]
        · simp [runLoopStep]
      | some r =>
        have h1 := hr r rfl
        simp only [maxAttemptsOf] at hk ha
        have hcond : shouldRetry a r = false := by
          rw [shouldRetry_eq_decide a r h1]
          simp only [decide_eq_false_iff_not]
          omega
        refine ⟨0, if isT then EventType.timeout else EventType.failure, ?_, ?_, by omega, ?_⟩
        · cases isT <;> simp
        · simp [runLoopStep, hcond]
        · simp [runLoopStep, hcond]
  | succ k ih =>
    intro a lastE ab hk ha
    rw [runLoop.eq_def, dif_pos ha]
    cases ho : outcome a with
    | success =>
      refine ⟨0, EventType.success, Or.inl rfl, by simp [runLoopStep], by omega, rfl⟩
    | failure isT msg =>
      cases retry with
      | none =>
        refine ⟨0, if isT then EventType.timeout else EventType.failure, ?_, ?_, by omega, ?_⟩
        · cases isT <;> simp
        · simp [runLoopStep]
        · simp [runLoopStep]
      | some r =>
        have h1 := hr r rfl
        by_cases hlt : a < r.attempts
        · have hcond : shouldRetry a r = true := by
            rw [shouldRetry_eq_decide a r h1]
            exact decide_eq_true hlt
          obtain ⟨n, t, htm, hev, hfail, hfb⟩ :=
            ih (a + 1) (some msg) ab
              (by simp only [maxAttemptsOf] at hk ⊢; omega)
              (by simp only [maxAttemptsOf] at ha ⊢; omega)
          refine ⟨n + 1, t, htm, ?_, ?_, ?_⟩
          · simp only [runLoopStep, hcond, if_true, List.map_cons]
            rw [hev]
            have hsh : ∀ i : Nat, a + 1 + i = a + (i + 1) := by omega
            simp [List.range_succ_eq_map, List.map_map, Function.comp, hsh]
          · intro i hi
            cases i with
            | zero =>
              intro hcc
              rw [Nat.add_zero] at hcc
              rw [hcc] at ho
              cases ho
            | succ j =>
              have hj := hfail j (by omega)
              have hsh : a + (j + 1) = a + 1 + j := by omega
              rw [hsh]
              exact hj
          · simp [runLoopStep, hcond, hfb]
        · have hcond : shouldRetry a r = false := by
            rw [shouldRetry_eq_decide a r h1]
            simp only [decide_eq_false_iff_not]
            omega
          refine ⟨0, if isT then EventType.timeout else EventType.failure, ?_, ?_, by omega, ?_⟩
          · cases isT <;> simp
          · simp [runLoopStep, hcond]
          · simp [runLoopStep, hcond]

/-! ## Claim C1 -/

/-- C1: for every job whose `retry.attempts`, when present, is at least 1, a
single `engine.run` emits exactly one `job:start`, then zero or more
`job:retry`, then exactly one terminal event among
`job:success`/`job:failure`/`job:timeout`, in that order; the `attempt` field
on the i-th retry event is `i`, the attempt that just failed (`outcome`
rejected there). -/
theorem run_event_stream_shape (config : JobConfig) (outcome : Nat → AttemptOutcome)
    (hr : retryAttemptsValid config) :
    ∃ n t,
      (t = EventType.success ∨ t = EventType.failure ∨ t = EventType.timeout) ∧
      ((engineRun config outcome).events.map (fun e => (e.type, e.attempt))
        = (EventType.start, 1)
            :: ((List.range n).map (fun i => (EventType.retry, 1 + i)) ++ [(t, 1 + n)])) ∧
      (∀ i, i < n → outcome (1 + i) ≠ AttemptOutcome.success) := by
  have hr' : ∀ r, config.retry = some r → 1 ≤ r.attempts := by
    intro r hrr
    have h2 : retryAttemptsValid config =
        (match config.retry with | some r => 1 ≤ r.attempts | none => True) := rfl
    rw [h2, hrr] at hr
    exact hr
  have hmax : 1 ≤ maxAttemptsOf config.retry := by
    cases hc : config.retry with
    | none => simp [maxAttemptsOf]
    | some r => simpa [maxAttemptsOf] using hr' r hc
  obtain ⟨n, t, htm, hev, hfail, _⟩ :=
    runLoop_shape config.retry outcome hr' (maxAttemptsOf config.retry - 1) 1 none false
      rfl hmax
  refine ⟨n, t, htm, ?_, hfail⟩
  simp only [engineRun, List.map_cons]
  rw [hev]

/-- Witness for C1 at a two-attempt config whose first attempt fails. -/
theorem run_event_stream_shape_witness :
    retryAttemptsValid
      { retry := some { attempts := 2, backoff := none, initialDelay := none }, timeout := none } ∧
    (∃ n t,
      (t = EventType.success ∨ t = EventType.failure ∨ t = EventType.timeout) ∧
      ((engineRun
          { retry := some { attempts := 2, backoff := none, initialDelay := none }, timeout := none }
          (fun k => if k = 1 then AttemptOutcome.failure false "boom" else AttemptOutcome.success)).events.map
            (fun e => (e.type, e.attempt))
        = (EventType.start, 1)
            :: ((List.range n).map (fun i => (EventType.retry, 1 + i)) ++ [(t, 1 + n)])) ∧
      (∀ i, i < n →
        (if 1 + i = 1 then AttemptOutcome.failure false "boom" else AttemptOutcome.success)
          ≠ AttemptOutcome.success)) := by
  have hw : retryAttemptsValid
      { retry := some { attempts := 2, backoff := none, initialDelay := none }, timeout := none } := by
    show (1 : Nat) ≤ 2
    decide
  exact ⟨hw, run_event_stream_shape _ _ hw⟩

/-! ## Claim C9 -/

/-- C9: under the precondition that `retry` is absent or `retry.attempts ≥ 1`,
`engine.run` always returns from inside the attempt loop, so the post-loop
fallback result — status `failure`, error `"Unknown error"` when no error was
recorded — is never the returned result; the second conjunct records what the
fallback branch builds when the loop guard fails. -/
theorem run_never_reaches_fallback (config : JobConfig) (outcome : Nat → AttemptOutcome)
    (hr : retryAttemptsValid config) :
    (engineRun config outcome).viaFallback = false ∧
    (∀ a lastE ab, ¬ (a ≤ maxAttemptsOf config.retry) →
      (runLoop config.retry outcome (maxAttemptsOf config.retry) a lastE ab).status
          = MStatus.failure ∧
      (runLoop config.retry outcome (maxAttemptsOf config.retry) a lastE ab).error
          = some (lastE.getD "Unknown error") ∧
      (runLoop config.retry outcome (maxAttemptsOf config.retry) a lastE ab).viaFallback = true) := by
  have hr' : ∀ r, config.retry = some r → 1 ≤ r.attempts := by
    intro r hrr
    have h2 : retryAttemptsValid config =
        (match config.retry with | some r => 1 ≤ r.attempts | none => True) := rfl
    rw [h2, hrr] at hr
    exact hr
  have hmax : 1 ≤ maxAttemptsOf config.retry := by
    cases hc : config.retry with
    | none => simp [maxAttemptsOf]
    | some r => simpa [maxAttemptsOf] using hr' r hc
  constructor
  · obtain ⟨n, t, htm, hev, hfail, hfb⟩ :=
      runLoop_shape config.retry outcome hr' (maxAttemptsOf config.retry - 1) 1 none false
        rfl hmax
    simpa [engineRun] using hfb
  · intro a lastE ab hgt
    rw [runLoop.eq_def, dif_neg hgt]
    exact ⟨rfl, rfl, rfl⟩

/-- Witness for C9 at a retry-free config with a failing handler. -/
theorem run_never_reaches_fallback_witness :
    retryAttemptsValid { retry := none, timeout := none } ∧
    (engineRun { retry := none, timeout := none }
        (fun _ => AttemptOutcome.failure false "x")).viaFallback = false := by
  have hw : retryAttemptsValid { retry := none, timeout := none } := by
    show True
    trivial
  exact ⟨hw, (run_never_reaches_fallback _ _ hw).1⟩

/-! ## Claim C2 -/

/-- When every listener before position `pre.length` returns and the listener
there throws, `forEach` invokes exactly the listeners up to and including the
thrower and the exception escapes. -/
theorem forEachInvoke_throw_after_ok (post : List MListener) (l : MListener)
    (hl : l.throws = true) :
    ∀ pre i, (∀ x ∈ pre, x.throws = false) →
      forEachInvoke (pre ++ l :: post) i
        = (List.range' i (pre.length + 1), some (i + pre.length)) := by
  intro pre
  induction pre with
  | nil =>
    intro i hp
    simp [forEachInvoke, hl, List.range']
  | cons x xs ih =>
    intro i hp
    have hx : x.throws = false := hp x (by simp)
    have hrec := ih (i + 1) (fun y hy => hp y (by simp [hy]))
    simp only [List.cons_append, forEachInvoke, hx, Bool.false_eq_true, if_false,
      List.append_eq, hrec, List.length_cons, Prod.mk.injEq, List.range'_succ,
      Option.some.injEq]
    exact ⟨trivial, by omega⟩

/-- C2 counterexample: with a throwing listener subscribed first, `emit` does
not swallow the exception (it escapes as `some 0`), the remaining
specific-type listener and all wildcard listeners are never invoked, and a
throwing `job:start` listener makes `engine.run` reject instead of resolving
to an `ExecutionResult`. -/
theorem emit_not_swallowed_counterexample :
    (emitModel [{ throws := true }, { throws := false }] [{ throws := false }]).2.2 = some 0 ∧
    (emitModel [{ throws := true }, { throws := false }] [{ throws := false }]).1 = [0] ∧
    (emitModel [{ throws := true }, { throws := false }] [{ throws := false }]).2.1 = [] ∧
    engineRunWithStartListeners [{ throws := true }] { retry := none, timeout := none }
        (fun _ => AttemptOutcome.success) = Except.error 0 := by
  exact ⟨rfl, rfl, rfl, rfl⟩

/-- C2 amended: an exception thrown by a listener during emission is NOT
swallowed: `emit` invokes exactly the listeners up to and including the first
throwing one, skips the rest (including every wildcard listener), and the
exception propagates to the emitter — in particular `engine.run` rejects when
a `job:start` listener throws. -/
theorem emit_exception_propagates (pre post wildcard : List MListener) (l : MListener)
    (hpre : ∀ x ∈ pre, x.throws = false) (hl : l.throws = true) :
    (emitModel (pre ++ l :: post) wildcard).2.2 = some pre.length ∧
    (emitModel (pre ++ l :: post) wildcard).1 = List.range (pre.length + 1) ∧
    (emitModel (pre ++ l :: post) wildcard).2.1 = [] ∧
    (∀ config outcome,
      engineRunWithStartListeners (pre ++ l :: post) config outcome
        = Except.error pre.length) := by
  have h := forEachInvoke_throw_after_ok post l hl pre 0 hpre
  refine ⟨?_, ?_, ?_, ?_⟩
  · simp [emitModel, h]
  · simp [emitModel, h, List.range_eq_range']
  · simp [emitModel, h]
  · intro config outcome
    simp [engineRunWithStartListeners, h]

/-- Witness for the amended C2 at a concrete three-listener bus. -/
theorem emit_exception_propagates_witness :
    (∀ x ∈ ([{ throws := false }] : List MListener), x.throws = false) ∧
    ({ throws := true } : MListener).throws = true ∧
    (emitModel ([{ throws := false }] ++ { throws := true }
        :: [{ throws := false }]) [{ throws := false }]).2.2 = some 1 := by
  refine ⟨by decide, rfl, ?_⟩
  exact (emit_exception_propagates [{ throws := false }] [{ throws := false }]
    [{ throws := false }] { throws := true } (by decide) rfl).1

/-! ## Claim C3 -/

/-- C3 (code bug): when the per-attempt timer wins the race — the attempt
settles as a timeout rejection — the run's result is `timeout`, yet the
cancellation token is never fired: `abortController.abort()` does not occur
anywhere in the engine, so the signal passed to the handler stays un-aborted. -/
theorem timeout_win_leaves_signal_unaborted :
    (engineRun { retry := none, timeout := some "50ms" }
        (fun _ => AttemptOutcome.failure true "Execution timed out after 50ms")).status
      = MStatus.timeout ∧
    (engineRun { retry := none, timeout := some "50ms" }
        (fun _ => AttemptOutcome.failure true "Execution timed out after 50ms")).signalAborted
      = false := by
  constructor <;>
    simp [engineRun, runLoop, runLoopStep, maxAttemptsOf, shouldRetry, jsOrDefault]

/-! ## Claim C4 -/

/-- C4 counterexample: `CronletWorker.executeJob` during shutdown returns the
message "Worker is shutting down" — not "Scheduler is shutting down" as the
claim states for every `executeJob` — and when not shutting down it keys its
in-flight entry by `<jobId>_<unix-ms>` rather than by a run id. -/
theorem worker_shutdown_counterexample :
    (workerExecuteJob true 1700000000000
        { jobId := "job1", runId := "r1", status := MStatus.success, attempt := 1, error := none }
        [] "job1").result.error = some "Worker is shutting down" ∧
    (workerExecuteJob true 1700000000000
        { jobId := "job1", runId := "r1", status := MStatus.success, attempt := 1, error := none }
        [] "job1").result.error ≠ some "Scheduler is shutting down" ∧
    (workerExecuteJob false 1700000000000
        { jobId := "job1", runId := "r1", status := MStatus.success, attempt := 1, error := none }
        [] "job1").inFlightDuring = ["job1_1700000000000"] := by
  refine ⟨rfl, by decide, rfl⟩

/-- C4 amended: `CronScheduler.executeJob` behaves exactly as claimed
(synthetic `failure`/`attempt 0`/`skipped_<unix-ms>`/"Scheduler is shutting
down" while shutting down; otherwise an in-flight handle keyed by `runId` is
registered, `engine.run` is called, and the handle is removed on settle),
while `CronletWorker.executeJob` instead reports "Worker is shutting down"
and keys its handle by `<jobId>_<unix-ms>`. -/
theorem executeJob_shutdown_and_inflight (nowMs : Nat) (genRunId : String)
    (er : MExecutionResult) (inFlight : List String) (jobId : String)
    (hfresh : genRunId ∉ inFlight)
    (hfreshW : (jobId ++ "_" ++ toString nowMs) ∉ inFlight) :
    ((schedulerExecuteJob true nowMs genRunId er inFlight jobId).result
        = { jobId := jobId, runId := "skipped_" ++ toString nowMs, status := MStatus.failure,
            attempt := 0, error := some "Scheduler is shutting down" } ∧
      (schedulerExecuteJob true nowMs genRunId er inFlight jobId).engineCalled = false) ∧
    ((schedulerExecuteJob false nowMs genRunId er inFlight jobId).result = er ∧
      (schedulerExecuteJob false nowMs genRunId er inFlight jobId).engineCalled = true ∧
      (schedulerExecuteJob false nowMs genRunId er inFlight jobId).inFlightDuring
        = inFlight ++ [genRunId] ∧
      (schedulerExecuteJob false nowMs genRunId er inFlight jobId).inFlightAfter = inFlight) ∧
    ((workerExecuteJob true nowMs er inFlight jobId).result.error
        = some "Worker is shutting down" ∧
      (workerExecuteJob false nowMs er inFlight jobId).inFlightDuring
        = inFlight ++ [jobId ++ "_" ++ toString nowMs] ∧
      (workerExecuteJob false nowMs er inFlight jobId).inFlightAfter = inFlight) := by
  have hfilter : ∀ (fl : List String) (k : String), k ∉ fl →
      (fl ++ [k]).filter (fun x => x ≠ k) = fl := by
    intro fl k hk
    rw [List.filter_append]
    have h1 : fl.filter (fun x => x ≠ k) = fl := by
      apply List.filter_eq_self.mpr
      intro x hx
      simp only [ne_eq, decide_eq_true_iff]
      intro hxx
      exact hk (hxx ▸ hx)
    have h2 : ([k].filter (fun x => x ≠ k)) = [] := by simp
    rw [h1, h2, List.append_nil]
  refine ⟨⟨rfl, rfl⟩, ⟨rfl, rfl, rfl, ?_⟩, ⟨rfl, rfl, ?_⟩⟩
  · show ((inFlight ++ [genRunId]).filter (fun k => k ≠ genRunId)) = inFlight
    exact hfilter inFlight genRunId hfresh
  · show ((inFlight ++ [jobId ++ "_" ++ toString nowMs]).filter
      (fun k => k ≠ jobId ++ "_" ++ toString nowMs)) = inFlight
    exact hfilter inFlight _ hfreshW

/-- Witness for the amended C4 at concrete inputs. -/
theorem executeJob_shutdown_and_inflight_witness :
    ("run_1" : String) ∉ ([] : List String) ∧
    (("job1" ++ "_" ++ toString 1000 : String) ∉ ([] : List String)) ∧
    (schedulerExecuteJob true 1000 "run_1"
        { jobId := "job1", runId := "r1", status := MStatus.success, attempt := 1, error := none }
        [] "job1").result
      = { jobId := "job1", runId := "skipped_" ++ toString 1000, status := MStatus.failure,
          attempt := 0, error := some "Scheduler is shutting down" } := by
  refine ⟨by simp, by simp, ?_⟩
  exact (executeJob_shutdown_and_inflight 1000 "run_1"
    { jobId := "job1", runId := "r1", status := MStatus.success, attempt := 1, error := none }
    [] "job1" (by simp) (by simp)).1.1

/-! ## Claim C5 -/

/-- C5: the `every()` lowering table, with `ceil(N/60)` and `ceil(N/24)`
written as `(N+59)/60` and `(N+23)/24` on naturals, together with the
concrete `every("15m")` compilation. -/
theorem every_lowering_table :
    (∀ N : Nat, 0 < N →
      (N < 60 → intervalToCron N IntervalUnit.s = "*/" ++ toString N ++ " * * * * *") ∧
      (60 ≤ N → intervalToCron N IntervalUnit.s
        = intervalToCron ((N + 59) / 60) IntervalUnit.m) ∧
      (N < 60 → intervalToCron N IntervalUnit.m = "*/" ++ toString N ++ " * * * *") ∧
      (60 ≤ N → intervalToCron N IntervalUnit.m
        = intervalToCron ((N + 59) / 60) IntervalUnit.h) ∧
      (N < 24 → intervalToCron N IntervalUnit.h = "0 */" ++ toString N ++ " * * *") ∧
      (24 ≤ N → intervalToCron N IntervalUnit.h
        = intervalToCron ((N + 23) / 24) IntervalUnit.d) ∧
      (N = 1 → intervalToCron N IntervalUnit.d = "0 0 * * *") ∧
      (1 < N → intervalToCron N IntervalUnit.d = "0 0 */" ++ toString N ++ " * *") ∧
      (N = 1 → intervalToCron N IntervalUnit.w = "0 0 * * 0") ∧
      (1 < N → intervalToCron N IntervalUnit.w = intervalToCron (N * 7) IntervalUnit.d)) ∧
    every "15m" = Except.ok
      { type := ScheduleType.interval, cron := "*/15 * * * *", timezone := none,
        humanReadable := "every 15 minutes",
        originalParams := OriginalParams.intervalParams "15m" } := by
  constructor
  · intro N hN
    refine ⟨?_, ?_, ?_, ?_, ?_, ?_, ?_, ?_, ?_, ?_⟩
    · intro h; simp [intervalToCron, cronForSecond, h]
    · intro h; simp [intervalToCron, cronForSecond, Nat.not_lt.mpr h]
    · intro h; simp [intervalToCron, cronForMinute, h]
    · intro h; simp [intervalToCron, cronForMinute, Nat.not_lt.mpr h]
    · intro h; simp [intervalToCron, cronForHour, h]
    · intro h; simp [intervalToCron, cronForHour, Nat.not_lt.mpr h]
    · intro h; simp [intervalToCron, cronForDay, h]
    · intro h; simp [intervalToCron, cronForDay, Nat.ne_of_gt h]
    · intro h; simp [intervalToCron, h]
    · intro h
      have hne : N ≠ 1 := Nat.ne_of_gt h
      simp [intervalToCron, hne]
  · rfl

/-- Witness for C5 at `N = 15` minutes. -/
theorem every_lowering_table_witness :
    0 < 15 ∧ intervalToCron 15 IntervalUnit.m = "*/" ++ toString 15 ++ " * * * *" :=
  ⟨by decide, ((every_lowering_table.1 15 (by decide)).2.2.1) (by decide)⟩

/-! ## Claim C6 -/

/-- C6 counterexample: `weekly(["fri","mon","wed"], "09:00")` renders its
human-readable day list in input order — "every Friday, Monday, and
Wednesday at 9:00 AM", not the claimed "every Monday, Wednesday, and Friday
at 9:00 AM" — and duplicate day tokens are not deduplicated:
`weekly(["mon","mon"], "09:00")` compiles to `0 9 * * 1,1`. -/
theorem weekly_counterexample :
    ((weekly ["fri", "mon", "wed"] "09:00").toOption.map (fun b => b.humanReadable)
        = some "every Friday, Monday, and Wednesday at 9:00 AM") ∧
    ((weekly ["fri", "mon", "wed"] "09:00").toOption.map (fun b => b.humanReadable)
        ≠ some "every Monday, Wednesday, and Friday at 9:00 AM") ∧
    ((weekly ["mon", "mon"] "09:00").toOption.map (fun b => b.cron) = some "0 9 * * 1,1") := by
  refine ⟨rfl, by decide, rfl⟩

/-- C6 amended: for valid day tokens and a valid time, the day-of-week list
in the emitted cron is the ascending sort of the mapped tokens with
duplicates preserved (no deduplication), and
`weekly(["fri","mon","wed"], "09:00")` yields cron `0 9 * * 1,3,5` with
humanReadable "every Friday, Monday, and Wednesday at 9:00 AM" (input
order). -/
theorem weekly_sorted_no_dedup :
    (weekly ["fri", "mon", "wed"] "09:00" = Except.ok
      { type := ScheduleType.weekly, cron := "0 9 * * 1,3,5", timezone := none,
        humanReadable := "every Friday, Monday, and Wednesday at 9:00 AM",
        originalParams := OriginalParams.weeklyParams ["fri", "mon", "wed"] "09:00" }) ∧
    (∀ days time h m b, days ≠ [] →
      (∀ d ∈ days, (dayOfWeekToCron d).isSome) →
      parseTime time = some (h, m) →
      weekly days time = Except.ok b →
      ∃ ds, ds.Perm (days.filterMap dayOfWeekToCron) ∧
        ds.Sorted (fun a b => a ≤ b) ∧
        b.cron = toString m ++ " " ++ toString h ++ " * * " ++ joinComma ds) := by
  constructor
  · rfl
  · intro days time h m b hne hvalid ht hb
    have hlen : ¬ (days.length = 0) := by
      cases days with
      | nil => exact absurd rfl hne
      | cons d ds => simp
    have hfind : days.find? (fun d => (dayOfWeekToCron d).isNone) = none := by
      rw [List.find?_eq_none]
      intro x hx
      have hs := hvalid x hx
      simp only [Option.isNone_iff_eq_none]
      intro hcc
      rw [hcc] at hs
      cases hs
    simp only [weekly, if_neg hlen, hfind, ht] at hb
    simp only [Except.ok.injEq] at hb
    subst hb
    refine ⟨sortAsc (days.filterMap dayOfWeekToCron), ?_, ?_, rfl⟩
    · exact List.perm_insertionSort _ _
    · exact List.sorted_insertionSort _ _

/-- Witness for the amended C6 on a duplicate-token input. -/
theorem weekly_sorted_no_dedup_witness :
    (["mon", "mon", "fri"] : List String) ≠ [] ∧
    (∀ d ∈ (["mon", "mon", "fri"] : List String), (dayOfWeekToCron d).isSome) ∧
    parseTime "09:00" = some (9, 0) ∧
    (∃ ds, ds.Perm ((["mon", "mon", "fri"] : List String).filterMap dayOfWeekToCron) ∧
      ds.Sorted (fun a b => a ≤ b) ∧
      (match weekly ["mon", "mon", "fri"] "09:00" with
        | Except.ok b => b.cron
        | Except.error e => e)
        = toString 0 ++ " " ++ toString 9 ++ " * * " ++ joinComma ds) := by
  refine ⟨by decide, by decide, rfl, ?_⟩
  exact weekly_sorted_no_dedup.2 ["mon", "mon", "fri"] "09:00" 9 0 _
    (by decide) (by decide) rfl rfl

/-! ## Claim C7 -/

/-- `dropWhile` is idempotent. -/
theorem dropWhile_dropWhile (p : Char → Bool) (l : List Char) :
    (l.dropWhile p).dropWhile p = l.dropWhile p := by
  induction l with
  | nil => rfl
  | cons a t ih => by_cases ha : p a <;> simp [List.dropWhile_cons, ha, ih]

/-- Appending an element that fails `p` commutes with `dropWhile p`. -/
theorem dropWhile_append_singleton (p : Char → Bool) (x : Char) (hx : p x = false)
    (l : List Char) : (l ++ [x]).dropWhile p = l.dropWhile p ++ [x] := by
  induction l with
  | nil => simp [List.dropWhile_cons, hx]
  | cons a t ih => by_cases ha : p a <;> simp [List.dropWhile_cons, ha, ih]

/-- `dropEnd` leaves a head that fails `p` in place. -/
theorem dropEnd_cons (p : Char → Bool) (x : Char) (xs : List Char) (hx : p x = false) :
    dropEnd p (x :: xs) = x :: dropEnd p xs := by
  unfold dropEnd
  rw [List.reverse_cons, dropWhile_append_singleton p x hx, List.reverse_append]
  simp

/-- `dropEnd` is idempotent. -/
theorem dropEnd_idem (p : Char → Bool) (l : List Char) :
    dropEnd p (dropEnd p l) = dropEnd p l := by
  unfold dropEnd
  rw [List.reverse_reverse, dropWhile_dropWhile]

/-- The head surviving a `dropWhile` fails the predicate. -/
theorem dropWhile_head_not (p : Char → Bool) :
    ∀ (l : List Char) x xs, l.dropWhile p = x :: xs → p x = false := by
  intro l
  induction l with
  | nil => intro x xs hcc; cases hcc
  | cons a t ih =>
    intro x xs hcc
    by_cases ha : p a
    · rw [List.dropWhile_cons_of_pos ha] at hcc
      exact ih x xs hcc
    · rw [List.dropWhile_cons_of_neg ha] at hcc
      cases hcc
      simpa using ha

/-- `trim()` is idempotent. -/
theorem jsTrim_idem (s : String) : jsTrim (jsTrim s) = jsTrim s := by
  unfold jsTrim
  cases hm : (s.data.dropWhile Char.isWhitespace) with
  | nil => simp [dropEnd]
  | cons x xs =>
    have hx : Char.isWhitespace x = false := dropWhile_head_not _ _ x xs hm
    rw [dropEnd_cons _ _ _ hx]
    show String.mk
      (dropEnd Char.isWhitespace
        ((x :: dropEnd Char.isWhitespace xs).dropWhile Char.isWhitespace))
      = String.mk (x :: dropEnd Char.isWhitespace xs)
    rw [List.dropWhile_cons_of_neg (by simp [hx])]
    rw [dropEnd_cons _ _ _ hx, dropEnd_idem]



/-- C7 counterexample: `cron("0 9  * * *")` — a run of two spaces between
fields — is accepted, and the stored `cron` field keeps the double space: it
is only trimmed, not whitespace-compressed into `"0 9 * * *"`. -/
theorem cron_whitespace_counterexample :
    ((cron "0 9  * * *").toOption.map (fun b => b.cron) = some "0 9  * * *") ∧
    ((cron "0 9  * * *").toOption.map (fun b => b.cron) ≠ some "0 9 * * *") := by
  exact ⟨rfl, by decide⟩

/-- C7 amended: `cron(expr)` accepts exactly the expressions that, after
trimming, split on whitespace into 5 or 6 fields each nonempty and matching
the class `[0-9*,/\-LW#]`, and the accepted expression is stored canonicalized
by whitespace **trim only** — internal runs of whitespace between fields are
preserved as-is. -/
theorem cron_acceptance_and_trim :
    (∀ expr,
      (∃ b, cron expr = Except.ok b) ↔
        (((splitWsJs (jsTrim expr)).length = 5 ∨ (splitWsJs (jsTrim expr)).length = 6) ∧
          ∀ p ∈ splitWsJs (jsTrim expr), p ≠ "" ∧ ∀ c ∈ p.data, isCronFieldChar c = true)) ∧
    (∀ expr b, cron expr = Except.ok b → b.cron = jsTrim expr) := by
  have hval : ∀ expr, (validateCronExpression (jsTrim expr) = true ↔
      (((splitWsJs (jsTrim expr)).length = 5 ∨ (splitWsJs (jsTrim expr)).length = 6) ∧
        ∀ p ∈ splitWsJs (jsTrim expr), p ≠ "" ∧ ∀ c ∈ p.data, isCronFieldChar c = true)) := by
    intro expr
    unfold validateCronExpression
    rw [jsTrim_idem]
    simp only [Bool.and_eq_true, Bool.or_eq_true, decide_eq_true_iff, List.all_eq_true]
  constructor
  · intro expr
    rw [← hval expr]
    constructor
    · rintro ⟨b, hb⟩
      cases hx : validateCronExpression (jsTrim expr) with
      | true => rfl
      | false => simp [cron, hx] at hb
    · intro hv
      have hok : cron expr = Except.ok
          { type := ScheduleType.cron
            cron := jsTrim expr
            timezone := none
            humanReadable := cronToHumanReadable (jsTrim expr)
            originalParams := OriginalParams.cronParams (jsTrim expr) } := by
        simp [cron, hv]
      exact ⟨_, hok⟩
  · intro expr b hb
    cases hx : validateCronExpression (jsTrim expr) with
    | false => simp [cron, hx] at hb
    | true =>
      simp only [cron, hx, Bool.not_true, Bool.false_eq_true, if_false, Except.ok.injEq] at hb
      rw [← hb]

/-- Witness for the amended C7 at a padded 5-field expression. -/
theorem cron_acceptance_and_trim_witness :
    (cron " 0 9 * * 1-5 " = Except.ok
      { type := ScheduleType.cron, cron := jsTrim " 0 9 * * 1-5 ", timezone := none,
        humanReadable := cronToHumanReadable (jsTrim " 0 9 * * 1-5 "),
        originalParams := OriginalParams.cronParams (jsTrim " 0 9 * * 1-5 ") }) ∧
    (match cron " 0 9 * * 1-5 " with
      | Except.ok b => b.cron
      | Except.error e => e) = jsTrim " 0 9 * * 1-5 " := by
  refine ⟨rfl, ?_⟩
  exact cron_acceptance_and_trim.2 " 0 9 * * 1-5 " _ rfl

/-! ## Claim C8 -/

/-- C8: `withTimezone(tz)` returns a descriptor whose `timezone` is `tz` and
whose `type`, `cron`, `humanReadable` and `originalParams` equal the
original's.  In this pure embedding `withTimezone` is a function of the
original value, so the original is untouched by construction. -/
theorem withTimezone_returns_new_descriptor (b : ScheduleBuilder) (tz : String) :
    (b.withTimezone tz).timezone = some tz ∧
    (b.withTimezone tz).type = b.type ∧
    (b.withTimezone tz).cron = b.cron ∧
    (b.withTimezone tz).humanReadable = b.humanReadable ∧
    (b.withTimezone tz).originalParams = b.originalParams :=
  ⟨rfl, rfl, rfl, rfl, rfl⟩

/-! ## Claim C10 -/

/-- C10: the shared time parser matches `^(\d{1,2}):(\d{2})$` — a one-digit
hour like "9:00" is accepted and compiles to the same cron as "09:00", the
minute group must be exactly two digits, the hour group at most two — and any
hour above 23 or minute above 59 makes `parseTime` return `null`, so the
builders (`daily`, and `weekly` which shares the parser) throw the
invalid-time error. -/
theorem parseTime_shared_semantics :
    (parseTime "9:00" = some (9, 0) ∧ parseTime "9:00" = parseTime "09:00") ∧
    ((daily ["9:00"]).toOption.map (fun b => b.cron)
        = (daily ["09:00"]).toOption.map (fun b => b.cron) ∧
      (daily ["9:00"]).toOption.map (fun b => b.cron) = some "0 9 * * *") ∧
    (matchTime "9:0" = none ∧ matchTime "9:000" = none ∧ matchTime "009:00" = none) ∧
    (∀ t h m, matchTime t = some (h, m) → 23 < h ∨ 59 < m →
      parseTime t = none ∧
      daily [t] = Except.error (invalidTimeMessage t) ∧
      weekly ["mon"] t = Except.error (invalidTimeMessage t)) := by
  refine ⟨⟨rfl, rfl⟩, ⟨rfl, rfl⟩, ⟨rfl, rfl, rfl⟩, ?_⟩
  intro t h m hmt hbound
  have hpt : parseTime t = none := by
    unfold parseTime
    rw [hmt]
    show (if (decide (h ≤ 23) && decide (m ≤ 59)) = true then some (h, m) else none) = none
    rw [if_neg (by simp only [Bool.and_eq_true, decide_eq_true_iff, not_and_or, not_le]; omega)]
  have hmon : dayOfWeekToCron "mon" = some 1 := rfl
  refine ⟨hpt, ?_, ?_⟩
  · simp [daily, parseTimesList, hpt]
  · simp [weekly, hpt, hmon]

/-- Witness for C10 at the out-of-range hour "24:00". -/
theorem parseTime_shared_semantics_witness :
    matchTime "24:00" = some (24, 0) ∧ (23 < 24 ∨ 59 < 0) ∧
    parseTime "24:00" = none ∧
    daily ["24:00"] = Except.error (invalidTimeMessage "24:00") := by
  have h := parseTime_shared_semantics.2.2.2 "24:00" 24 0 rfl (Or.inl (by decide))
  exact ⟨rfl, Or.inl (by decide), h.1, h.2.1⟩

end Cronlet
